import Mathlib

/-
  Verification of the Malachite consensus core against its specification.

  The definitions below are a shallow embedding of the Rust sources:
  - round/src/state_machine.rs        (consensus round state machine)
  - crates/driver/src/proposal_keeper.rs  (proposal store and evidence map)
  - crates/actors/src/util/value_builder.rs (maybe_received_value)
  - crates/discovery/src/handlers/peers_management.rs (select_outbound_connections)
  - proto/src/impls.rs                (protobuf codec for Round)

  Supporting data types that live in crates not included in the sources
  (malachite-common's Round, the round crate's State/Step/Input/Output/Transition,
  the actors crate's PartStore) are modelled from the specification, as noted
  in their doc comments.
-/

/-- Modelled from the spec: `Round` (malachite-common, not in the sources) is
either `Nil` (the "no Proof-of-Lock round" sentinel) or a non-negative integer.
Defined rounds are totally ordered and `Nil` sits below all of them. -/
inductive Round where
  | nil : Round
  | some (n : Nat) : Round
deriving DecidableEq, Repr

/-- Modelled from the spec: a round is Nil or defined. -/
def Round.isNil : Round → Bool
  | .nil => true
  | .some _ => false

/-- Modelled from the spec: a round is defined when it is not Nil. -/
def Round.isDefined : Round → Bool
  | .nil => false
  | .some _ => true

/-- Modelled from the spec: strict order on rounds, `Nil` below every defined round. -/
def Round.lt : Round → Round → Bool
  | .nil, .some _ => true
  | .some m, .some n => decide (m < n)
  | _, .nil => false

/-- Modelled from the spec: non-strict order on rounds. -/
def Round.le : Round → Round → Bool
  | .nil, _ => true
  | .some _, .nil => false
  | .some m, .some n => decide (m ≤ n)

/-- Modelled from the spec: `increment` on a defined round yields the next
defined round. The spec leaves `increment` undefined on `Nil`; following the
i64 encoding in which `Nil` is -1, we let it yield round 0 there. -/
def Round.increment : Round → Round
  | .nil => .some 0
  | .some n => .some (n + 1)

/-- Modelled from the spec: the i64 representation of a round used on the wire,
with `Nil` encoded as -1 and a defined round as its (non-negative) number. -/
def Round.as_i64 : Round → Int
  | .nil => -1
  | .some n => (n : Int)

/-- Modelled from the spec: build a round from its i64 representation; every
negative number denotes `Nil`. -/
def Round.new (i : Int) : Round :=
  if i < 0 then .nil else .some i.toNat

/-- The protobuf message for a round: a single i64 field (proto/src/impls.rs). -/
structure ProtoRound where
  round : Int
deriving DecidableEq, Repr

/-- Error type of the protobuf codec; the Round codec never produces one. -/
inductive ProtoError where
  | other : ProtoError
deriving DecidableEq, Repr

/-- Protobuf encoding of `Round`, from `impl Protobuf for Round` in proto/src/impls.rs. -/
def Round.to_proto (r : Round) : Except ProtoError ProtoRound :=
  .ok { round := r.as_i64 }

/-- Protobuf decoding of `Round`, from `impl Protobuf for Round` in proto/src/impls.rs. -/
def Round.from_proto (p : ProtoRound) : Except ProtoError Round :=
  .ok (Round.new p.round)

/-- Modelled from the spec: `NilOrVal` is either `Nil` or a value. -/
inductive NilOrVal (α : Type) where
  | nil : NilOrVal α
  | val (a : α) : NilOrVal α
deriving DecidableEq, Repr

/-- Modelled from the spec: the two vote types. -/
inductive VoteType where
  | Prevote
  | Precommit
deriving DecidableEq, Repr

/-- Modelled from the spec: the timeout steps carried by timeout outputs. -/
inductive TimeoutStep where
  | Propose
  | Prevote
  | Precommit
deriving DecidableEq, Repr

/-- Modelled from the spec: the step of the round state machine. -/
inductive Step where
  | Unstarted
  | Propose
  | Prevote
  | Precommit
  | Commit
deriving DecidableEq, Repr

/-- Modelled from the spec: a (round, value) pair as stored in `locked`/`valid`. -/
structure RoundValue (V : Type) where
  round : Round
  value : V
deriving DecidableEq, Repr

/-- Modelled from the spec: the per-round state of the consensus state machine
(round/src/state.rs, not in the sources): round, step, locked, valid, decision,
plus the height the machine is running at. -/
structure State (V : Type) where
  height : Nat
  round : Round
  step : Step
  locked : Option (RoundValue V)
  valid : Option (RoundValue V)
  decision : Option V
deriving DecidableEq, Repr

/-- Modelled from the spec: `State::with_step` returns the state with the step replaced. -/
def State.with_step (s : State V) (step : Step) : State V :=
  { s with step := step }

/-- Modelled from the spec: `State::with_round` returns the state with the round replaced. -/
def State.with_round (s : State V) (round : Round) : State V :=
  { s with round := round }

/-- Modelled from the spec: `State::set_locked` locks the given value at the current round. -/
def State.set_locked (s : State V) (value : V) : State V :=
  { s with locked := Option.some ⟨s.round, value⟩ }

/-- Modelled from the spec: `State::set_valid` records the given value as valid at the current round. -/
def State.set_valid (s : State V) (value : V) : State V :=
  { s with valid := Option.some ⟨s.round, value⟩ }

/-- Modelled from the spec: `State::set_decision` records the decided value. -/
def State.set_decision (s : State V) (value : V) : State V :=
  { s with decision := Option.some value }

/-- Modelled from the spec: a proposal with height, round, value, Proof-of-Lock
round and the proposer's address (malachite-common's Proposal). -/
structure Proposal (V A : Type) where
  height : Nat
  round : Round
  value : V
  polRound : Round
  validatorAddress : A
deriving DecidableEq, Repr

/-- Immutable information about the input: the round it is for, our address,
and the proposer of the current round (state_machine.rs, `Info`). -/
structure Info (A : Type) where
  inputRound : Round
  address : A
  proposer : A
deriving DecidableEq, Repr

/-- Whether our node is the proposer for the round (state_machine.rs, `Info::is_proposer`). -/
def Info.isProposer [DecidableEq A] (i : Info A) : Bool :=
  decide (i.address = i.proposer)

/-- Modelled from the spec: the inputs of the round state machine
(round/src/input.rs, not in the sources). -/
inductive Input (V A : Type) where
  | NewRound (r : Round)
  | ProposeValue (v : V)
  | Proposal (p : Proposal V A)
  | ProposalAndPolkaPrevious (p : Proposal V A)
  | InvalidProposalAndPolkaPrevious (p : Proposal V A)
  | InvalidProposal
  | TimeoutPropose
  | PolkaAny
  | PolkaNil
  | ProposalAndPolkaCurrent (p : Proposal V A)
  | TimeoutPrevote
  | PrecommitAny
  | ProposalAndPrecommitValue (p : Proposal V A)
  | TimeoutPrecommit
  | SkipRound (r : Round)
deriving DecidableEq, Repr

/-- Modelled from the spec: the outputs of the round state machine
(round/src/output.rs, not in the sources). A `Vote` output carries the vote
type, height, round, a `NilOrVal` over value ids, and our address. -/
inductive Output (V VId A : Type) where
  | NewRound (r : Round)
  | Proposal (height : Nat) (round : Round) (value : V) (polRound : Round)
  | Vote (ty : VoteType) (height : Nat) (round : Round) (value : NilOrVal VId) (address : A)
  | ScheduleTimeout (round : Round) (step : TimeoutStep)
  | GetValueAndScheduleTimeout (round : Round) (step : TimeoutStep)
  | Decision (round : Round) (value : V)
deriving DecidableEq, Repr

/-- Modelled from the spec: the result of `apply`, a next state together with an
optional output; `valid` distinguishes real transitions from discarded inputs
(round/src/transition.rs, not in the sources). -/
structure Transition (V VId A : Type) where
  nextState : State V
  output : Option (Output V VId A)
  valid : Bool
deriving DecidableEq, Repr

/-- A valid transition to the given state with no output (`Transition::to`). -/
def Transition.to (s : State V) : Transition V VId A :=
  ⟨s, Option.none, true⟩

/-- An invalid transition: the state is unchanged and no output is emitted
(`Transition::invalid`). -/
def Transition.invalid (s : State V) : Transition V VId A :=
  ⟨s, Option.none, false⟩

/-- Attach an output to a transition (`Transition::with_output`). -/
def Transition.withOutput (t : Transition V VId A) (o : Output V VId A) : Transition V VId A :=
  { t with output := Option.some o }

section StateMachine

variable {V VId A : Type} [DecidableEq V] [DecidableEq VId] [DecidableEq A]

/-- Check that a proposal has a valid Proof-Of-Lock round (state_machine.rs,
`is_valid_pol_round`): the round is defined and below the current round. -/
def is_valid_pol_round (state : State V) (polRound : Round) : Bool :=
  polRound.isDefined && Round.lt polRound state.round

/-- We are the proposer: propose the valid value if present, otherwise ask for a
value and schedule timeout propose (state_machine.rs, `propose_valid_or_get_value`). -/
def propose_valid_or_get_value (state : State V) : Transition V VId A :=
  match state.valid with
  | Option.some roundValue =>
      let polRound := roundValue.round
      Transition.withOutput
        (Transition.to (state.with_step Step.Propose))
        (Output.Proposal state.height state.round roundValue.value polRound)
  | Option.none =>
      Transition.withOutput
        (Transition.to (state.with_step Step.Propose))
        (Output.GetValueAndScheduleTimeout state.round TimeoutStep.Propose)

/-- We are the proposer: propose the given value (state_machine.rs, `propose`). -/
def propose (state : State V) (value : V) : Transition V VId A :=
  Transition.withOutput
    (Transition.to (state.with_step Step.Propose))
    (Output.Proposal state.height state.round value Round.nil)

/-- Received a complete proposal; prevote the value, unless we are locked on
something else at a higher round (state_machine.rs, `prevote`). -/
def prevote (vid : V → VId) (state : State V) (address : A) (proposal : Proposal V A) :
    Transition V VId A :=
  let vr := proposal.round
  let proposed := vid proposal.value
  let value : NilOrVal VId :=
    match state.locked with
    | Option.some locked =>
        if Round.le locked.round vr then NilOrVal.val proposed
        else if vid locked.value = proposed then NilOrVal.val proposed
        else NilOrVal.nil
    | Option.none => NilOrVal.val proposed
  Transition.withOutput
    (Transition.to (state.with_step Step.Prevote))
    (Output.Vote VoteType.Prevote state.height state.round value address)

/-- Received a complete proposal for an empty or invalid value, or timed out;
prevote nil (state_machine.rs, `prevote_nil`). -/
def prevote_nil (state : State V) (address : A) : Transition V VId A :=
  Transition.withOutput
    (Transition.to (state.with_step Step.Prevote))
    (Output.Vote VoteType.Prevote state.height state.round NilOrVal.nil address)

/-- Received a polka for a value; precommit the value (state_machine.rs, `precommit`). -/
def precommit (vid : V → VId) (state : State V) (address : A) (proposal : Proposal V A) :
    Transition V VId A :=
  if state.step ≠ Step.Prevote then Transition.to state
  else
    let value := proposal.value
    Transition.withOutput
      (Transition.to (((state.set_locked value).set_valid value).with_step Step.Precommit))
      (Output.Vote VoteType.Precommit state.height state.round (NilOrVal.val (vid value)) address)

/-- Received a polka for nil or timed out of prevote; precommit nil
(state_machine.rs, `precommit_nil`). -/
def precommit_nil (state : State V) (address : A) : Transition V VId A :=
  Transition.withOutput
    (Transition.to (state.with_step Step.Precommit))
    (Output.Vote VoteType.Precommit state.height state.round NilOrVal.nil address)

/-- We are not the proposer; schedule timeout propose (state_machine.rs,
`schedule_timeout_propose`). -/
def schedule_timeout_propose (state : State V) : Transition V VId A :=
  Transition.withOutput
    (Transition.to (state.with_step Step.Propose))
    (Output.ScheduleTimeout state.round TimeoutStep.Propose)

/-- We received a polka for any; schedule timeout prevote (state_machine.rs,
`schedule_timeout_prevote`). -/
def schedule_timeout_prevote (state : State V) : Transition V VId A :=
  if state.step = Step.Prevote then
    Transition.withOutput (Transition.to state)
      (Output.ScheduleTimeout state.round TimeoutStep.Prevote)
  else Transition.to state

/-- We received +2/3 precommits for any; schedule timeout precommit
(state_machine.rs, `schedule_timeout_precommit`). -/
def schedule_timeout_precommit (state : State V) : Transition V VId A :=
  Transition.withOutput (Transition.to state)
    (Output.ScheduleTimeout state.round TimeoutStep.Precommit)

/-- We received a polka for a value after we already precommitted; set the valid
value (state_machine.rs, `set_valid_value`). -/
def set_valid_value (state : State V) (proposal : Proposal V A) : Transition V VId A :=
  Transition.to (state.set_valid proposal.value)

/-- We finished a round or received +1/3 votes from a higher round; move to the
given round (state_machine.rs, `round_skip`). -/
def round_skip (state : State V) (round : Round) : Transition V VId A :=
  Transition.withOutput
    (Transition.to ((state.with_round round).with_step Step.Unstarted))
    (Output.NewRound round)

/-- We received +2/3 precommits for a value; commit and decide that value
(state_machine.rs, `commit`). -/
def commit (state : State V) (round : Round) (proposal : Proposal V A) : Transition V VId A :=
  Transition.withOutput
    (Transition.to ((state.set_decision proposal.value).with_step Step.Commit))
    (Output.Decision round proposal.value)

/-- Apply an input to the current state at the current round (state_machine.rs,
`apply`). The match arms reproduce the Rust match in its source order; the
guards `state.round = info.inputRound` spell out the Rust `this_round`. -/
def apply (vid : V → VId) (state : State V) (info : Info A) (input : Input V A) :
    Transition V VId A :=
  match state.step, input with
  -- L18: we are the proposer / L11, L20: we are not
  | Step.Unstarted, Input.NewRound round =>
      if info.isProposer then propose_valid_or_get_value { state with round := round }
      else schedule_timeout_propose { state with round := round }
  -- L11/L14
  | Step.Propose, Input.ProposeValue value =>
      if state.round = info.inputRound then propose state value
      else Transition.invalid state
  -- L22 with valid proposal
  | Step.Propose, Input.Proposal proposal =>
      if state.round = info.inputRound ∧ proposal.polRound.isNil = true then
        match state.locked with
        | Option.none => prevote vid state info.address proposal
        | Option.some locked =>
            if locked.value = proposal.value then prevote vid state info.address proposal
            else prevote_nil state info.address
      else Transition.invalid state
  -- L28 with valid proposal
  | Step.Propose, Input.ProposalAndPolkaPrevious proposal =>
      if state.round = info.inputRound ∧ is_valid_pol_round state proposal.polRound = true then
        match state.locked with
        | Option.some locked =>
            if Round.le locked.round proposal.polRound = true ∧ locked.value = proposal.value
            then prevote vid state info.address proposal
            else prevote_nil state info.address
        | Option.none => prevote_nil state info.address
      else Transition.invalid state
  -- L28 with invalid proposal
  | Step.Propose, Input.InvalidProposalAndPolkaPrevious proposal =>
      if state.round = info.inputRound ∧ is_valid_pol_round state proposal.polRound = true then
        prevote_nil state info.address
      else Transition.invalid state
  -- L22/L25, L28/L31
  | Step.Propose, Input.InvalidProposal =>
      if state.round = info.inputRound then prevote_nil state info.address
      else Transition.invalid state
  -- L57 (proposer or not: both arms prevote nil)
  | Step.Propose, Input.TimeoutPropose =>
      if state.round = info.inputRound then prevote_nil state info.address
      else Transition.invalid state
  -- L34
  | Step.Prevote, Input.PolkaAny =>
      if state.round = info.inputRound then schedule_timeout_prevote state
      else Transition.invalid state
  -- L45
  | Step.Prevote, Input.PolkaNil =>
      if state.round = info.inputRound then precommit_nil state info.address
      else Transition.invalid state
  -- L36/L37
  | Step.Prevote, Input.ProposalAndPolkaCurrent proposal =>
      if state.round = info.inputRound then precommit vid state info.address proposal
      else Transition.invalid state
  -- L61
  | Step.Prevote, Input.TimeoutPrevote =>
      if state.round = info.inputRound then precommit_nil state info.address
      else Transition.invalid state
  -- L36/L42
  | Step.Precommit, Input.ProposalAndPolkaCurrent proposal =>
      if state.round = info.inputRound then set_valid_value state proposal
      else Transition.invalid state
  -- From Commit: no more state transitions.
  | Step.Commit, _ => Transition.invalid state
  -- L47
  | _, Input.PrecommitAny =>
      if state.round = info.inputRound then schedule_timeout_precommit state
      else Transition.invalid state
  -- L65
  | _, Input.TimeoutPrecommit =>
      if state.round = info.inputRound then round_skip state info.inputRound.increment
      else Transition.invalid state
  -- L55
  | _, Input.SkipRound round =>
      if Round.lt state.round round then round_skip state round
      else Transition.invalid state
  -- L49
  | _, Input.ProposalAndPrecommitValue proposal => commit state info.inputRound proposal
  -- Invalid transition.
  | _, _ => Transition.invalid state

end StateMachine

section KeeperDefs

variable {V A : Type} [DecidableEq V] [DecidableEq A]

/-- The proposal received in a given round, if any (proposal_keeper.rs, `PerRound`). -/
structure PerRound (V A : Type) where
  proposal : Option (Proposal V A)
deriving DecidableEq, Repr

/-- Add a proposal to the round, checking for conflicts (proposal_keeper.rs,
`PerRound::add`). A conflicting proposal (different value already recorded)
is returned as the error `(existing, conflicting)` and the store is unchanged;
otherwise the proposal is stored. -/
def PerRound.add (pr : PerRound V A) (proposal : Proposal V A) :
    Except (Proposal V A × Proposal V A) (PerRound V A) :=
  match pr.proposal with
  | Option.some existing =>
      if existing.value ≠ proposal.value then Except.error (existing, proposal)
      else Except.ok ⟨Option.some proposal⟩
  | Option.none => Except.ok ⟨Option.some proposal⟩

/-- Return the proposal received in the round (proposal_keeper.rs, `PerRound::get_proposal`). -/
def PerRound.get_proposal (pr : PerRound V A) : Option (Proposal V A) :=
  pr.proposal

/-- Keeps track of evidence of equivocation (proposal_keeper.rs, `EvidenceMap`).
The `BTreeMap<Address, Vec<(Proposal, Proposal)>>` is modelled as a function
from addresses to an optional list, `none` standing for an absent entry. -/
structure EvidenceMap (V A : Type) where
  map : A → Option (List (Proposal V A × Proposal V A))

/-- Return the evidence of equivocation for an address, if any
(proposal_keeper.rs, `EvidenceMap::get`). -/
def EvidenceMap.get (em : EvidenceMap V A) (address : A) :
    Option (List (Proposal V A × Proposal V A)) :=
  em.map address

/-- Add evidence of equivocation, keyed by the conflicting proposal's proposer
(proposal_keeper.rs, `EvidenceMap::add`): push onto the existing vector, or
insert a fresh singleton vector. -/
def EvidenceMap.add (em : EvidenceMap V A) (existing conflicting : Proposal V A) :
    EvidenceMap V A :=
  match em.map conflicting.validatorAddress with
  | Option.some evidence =>
      ⟨fun a => if a = conflicting.validatorAddress
                then Option.some (evidence ++ [(existing, conflicting)])
                else em.map a⟩
  | Option.none =>
      ⟨fun a => if a = conflicting.validatorAddress
                then Option.some [(existing, conflicting)]
                else em.map a⟩

/-- Keeps track of proposals (proposal_keeper.rs, `ProposalKeeper`). The
`BTreeMap<Round, PerRound>` is modelled as a function from rounds to an
optional entry. The `validator_set` field of the Rust struct is carried only
for the accessor `validator_set()` and is not modelled. -/
structure ProposalKeeper (V A : Type) where
  per_round : Round → Option (PerRound V A)
  evidence : EvidenceMap V A

/-- A fresh keeper with no proposals and no evidence (proposal_keeper.rs,
`ProposalKeeper::new`). -/
def ProposalKeeper.new : ProposalKeeper V A :=
  ⟨fun _ => Option.none, ⟨fun _ => Option.none⟩⟩

/-- Return the proposal recorded for the round, if any (proposal_keeper.rs,
`ProposalKeeper::get_proposal_for_round`). -/
def ProposalKeeper.get_proposal_for_round (k : ProposalKeeper V A) (round : Round) :
    Option (Proposal V A) :=
  (k.per_round round).bind fun roundInfo => roundInfo.proposal

/-- Apply a proposal (proposal_keeper.rs, `ProposalKeeper::apply_proposal`):
fetch or default the per-round entry, try to add; a conflict goes into the
evidence map and leaves the stored proposal unchanged. The function is total:
no error escapes to the caller. -/
def ProposalKeeper.apply_proposal (k : ProposalKeeper V A) (proposal : Proposal V A) :
    ProposalKeeper V A :=
  let perRound := (k.per_round proposal.round).getD ⟨Option.none⟩
  match perRound.add proposal with
  | Except.ok perRound' =>
      { k with per_round := fun r => if r = proposal.round then Option.some perRound'
                                     else k.per_round r }
  | Except.error (existing, conflicting) =>
      { k with evidence := k.evidence.add existing conflicting }

/-- Apply a sequence of proposals in order. -/
def ProposalKeeper.apply_all (k : ProposalKeeper V A) (ps : List (Proposal V A)) :
    ProposalKeeper V A :=
  ps.foldl ProposalKeeper.apply_proposal k

end KeeperDefs

section ValueBuilderDefs

variable {V A : Type}

/-- Modelled from the spec: the block metadata carried by the last block part,
holding the proposed value (malachite-test's BlockMetadata; only the value is
relevant here). -/
structure BlockMetadata (V : Type) where
  value : V
deriving DecidableEq, Repr

/-- Modelled from the spec: a block part as stored in the part store; only the
fields read by `maybe_received_value` are modelled. -/
structure BlockPart (V A : Type) where
  validatorAddress : A
  metadata : Option (BlockMetadata V)
deriving DecidableEq, Repr

/-- Validity stamp of a proposed value (malachite-driver's Validity). -/
inductive Validity where
  | Valid
  | Invalid
deriving DecidableEq, Repr

/-- A proposed value received from block parts (actors crate,
`ReceivedProposedValue`). -/
structure ReceivedProposedValue (V A : Type) where
  validatorAddress : A
  height : Nat
  round : Round
  value : Option V
  valid : Validity
deriving DecidableEq, Repr

/-- The body of `maybe_received_value` (value_builder.rs): fetch the last block
part with `block_parts[num_parts - 1]` and map over its metadata. The part
store's `all_parts(height, round)` result is passed as the `blockParts` list
(the PartStore itself is not in the sources). The unchecked Rust indexing is
modelled as `List.get?`: the outer `none` marks the out-of-bounds panic taken
on an empty part list. -/
def maybe_received_value (height : Nat) (round : Round) (blockParts : List (BlockPart V A)) :
    Option (Option (ReceivedProposedValue V A)) :=
  let numParts := blockParts.length
  match blockParts.get? (numParts - 1) with
  | Option.none => Option.none
  | Option.some lastPart =>
      Option.some (lastPart.metadata.map fun meta =>
        ⟨lastPart.validatorAddress, height, round, Option.some meta.value, Validity.Valid⟩)

end ValueBuilderDefs

section DiscoveryDefs

/-- An outbound connection entry (discovery crate, `OutboundConnection`). -/
structure OutboundConnection where
  connection_id : Option Nat
  is_persistent : Bool
deriving DecidableEq, Repr

/-- The outcome of `try_select_n_outbound_candidates` (discovery crate,
`Selection`): exactly n candidates, fewer than n, or none at all. -/
inductive Selection where
  | Exactly (peers : List Nat)
  | Only (peers : List Nat)
  | None
deriving DecidableEq, Repr

/-- The connection state touched by `select_outbound_connections`
(peers_management.rs): inbound and outbound connection maps and the active
connections per peer, with peer and connection ids as naturals. The maps are
modelled as functions to optional entries. -/
structure DiscoveryState where
  inbound_connections : Nat → Option Nat
  outbound_connections : Nat → Option OutboundConnection
  active_connections : Nat → Option (List Nat)

/-- The per-peer insertion loop of `select_outbound_connections`
(peers_management.rs lines 38-64): for each selected peer record an outbound
entry whose connection id is the first active connection, if any. The connect
requests pushed to the controller queue do not touch the connection maps and
are not modelled. -/
def insert_outbound_connections (st : DiscoveryState) (peers : List Nat) : DiscoveryState :=
  peers.foldl
    (fun s peer =>
      { s with outbound_connections := fun q =>
          if q = peer
          then Option.some ⟨(s.active_connections peer).bind List.head?, false⟩
          else s.outbound_connections q })
    st

/-- The safety check of `select_outbound_connections` (peers_management.rs
lines 66-73): retain only the inbound connections whose connection id differs
from the peer's outbound connection id. -/
def retain_disjoint_inbound (st : DiscoveryState) : DiscoveryState :=
  { st with inbound_connections := fun peer =>
      match st.inbound_connections peer with
      | Option.none => Option.none
      | Option.some connId =>
          match st.outbound_connections peer with
          | Option.none => Option.some connId
          | Option.some outConn =>
              if outConn.connection_id = Option.some connId then Option.none
              else Option.some connId }

/-- The body of `select_outbound_connections` (peers_management.rs): the
candidate selection comes from the external selector and is passed as a
parameter. On `Selection::None` the function returns early, before the
insertion loop and the safety check. -/
def select_outbound_connections (st : DiscoveryState) (sel : Selection) : DiscoveryState :=
  match sel with
  | Selection.Exactly peers => retain_disjoint_inbound (insert_outbound_connections st peers)
  | Selection.Only peers => retain_disjoint_inbound (insert_outbound_connections st peers)
  | Selection.None => st

end DiscoveryDefs

section ClaimTheorems

variable {V VId A : Type} [DecidableEq V] [DecidableEq VId] [DecidableEq A]

/-- C2: once a state has step Commit, `apply` returns the state unchanged and
emits no output for every input; in particular the `decision` field, once set
by the commit transition, is never overwritten by any later input. -/
theorem apply_commit_is_noop (vid : V → VId) (state : State V) (info : Info A)
    (input : Input V A) (h : state.step = Step.Commit) :
    (apply vid state info input).nextState = state ∧
    (apply vid state info input).output = Option.none := by
  obtain ⟨height, round, step, locked, valid, decision⟩ := state
  obtain rfl : step = Step.Commit := h
  cases input <;> exact ⟨rfl, rfl⟩

/-- Witness for C2 at a concrete committed state and input. -/
theorem apply_commit_is_noop_witness :
    ((⟨1, Round.some 0, Step.Commit, Option.none, Option.none, Option.some 7⟩ : State Nat).step
        = Step.Commit) ∧
    ((apply (fun v => v)
        (⟨1, Round.some 0, Step.Commit, Option.none, Option.none, Option.some 7⟩ : State Nat)
        (⟨Round.some 0, 3, 4⟩ : Info Nat) Input.PolkaNil).nextState
      = ⟨1, Round.some 0, Step.Commit, Option.none, Option.none, Option.some 7⟩ ∧
     (apply (fun v => v)
        (⟨1, Round.some 0, Step.Commit, Option.none, Option.none, Option.some 7⟩ : State Nat)
        (⟨Round.some 0, 3, 4⟩ : Info Nat) Input.PolkaNil).output = Option.none) :=
  ⟨rfl, apply_commit_is_noop (fun v => v) _ _ _ rfl⟩

/-- C8: at step Unstarted, `apply` accepts NewRound(r) for every round r with no
guard relating r to the state's round: it sets the round to r and moves to step
Propose, even when r is below the current round; round monotonicity is not
enforced by the round state machine itself. -/
theorem apply_new_round_no_monotonicity_guard (vid : V → VId) (state : State V)
    (info : Info A) (r : Round) (h : state.step = Step.Unstarted) :
    (apply vid state info (Input.NewRound r)).nextState.round = r ∧
    (apply vid state info (Input.NewRound r)).nextState.step = Step.Propose := by
  obtain ⟨height, round, step, locked, valid, decision⟩ := state
  obtain rfl : step = Step.Unstarted := h
  by_cases hp : (Info.isProposer info) = true <;> cases valid <;>
    simp [apply, hp, propose_valid_or_get_value, schedule_timeout_propose,
      Transition.to, Transition.withOutput, State.with_step]

/-- Witness for C8 at a concrete state whose round 5 is above the new round 0. -/
theorem apply_new_round_no_monotonicity_guard_witness :
    ((⟨1, Round.some 5, Step.Unstarted, Option.none, Option.none, Option.none⟩ : State Nat).step
        = Step.Unstarted) ∧
    ((apply (fun v => v)
        (⟨1, Round.some 5, Step.Unstarted, Option.none, Option.none, Option.none⟩ : State Nat)
        (⟨Round.some 0, 3, 4⟩ : Info Nat) (Input.NewRound (Round.some 0))).nextState.round
      = Round.some 0 ∧
     (apply (fun v => v)
        (⟨1, Round.some 5, Step.Unstarted, Option.none, Option.none, Option.none⟩ : State Nat)
        (⟨Round.some 0, 3, 4⟩ : Info Nat) (Input.NewRound (Round.some 0))).nextState.step
      = Step.Propose) :=
  ⟨rfl, apply_new_round_no_monotonicity_guard (fun v => v) _ _ _ rfl⟩

/-- C9: the protobuf encoding of Round round-trips: for every Round value,
including Nil, decoding the encoding succeeds and returns an equal Round. -/
theorem round_proto_roundtrip (r : Round) :
    (Round.to_proto r).bind Round.from_proto = Except.ok r := by
  cases r with
  | nil => rfl
  | some n =>
      have h : ¬((n : Int) < 0) := not_lt.mpr (Int.natCast_nonneg n)
      simp [Round.to_proto, Round.from_proto, Round.as_i64, Round.new, Except.bind, h]

/-- C7: when the part list for (height, round) is non-empty, the index
`parts.length - 1` used by `maybe_received_value` to fetch the last part is in
bounds and the out-of-bounds branch is unreachable; on an empty part list the
unchecked indexing fails, so the function is not safe to call there. -/
theorem maybe_received_value_needs_parts (height : Nat) (round : Round)
    (parts : List (BlockPart V A)) :
    (parts ≠ [] →
      parts.length - 1 < parts.length ∧
      (maybe_received_value height round parts).isSome = true) ∧
    (parts = [] → maybe_received_value height round parts = Option.none) := by
  constructor
  · intro h
    have hlen : 0 < parts.length := List.length_pos.mpr h
    have hidx : parts.length - 1 < parts.length := Nat.sub_lt hlen Nat.one_pos
    refine ⟨hidx, ?_⟩
    simp only [maybe_received_value]
    rw [List.get?_eq_get hidx]
    rfl
  · intro h
    subst h
    rfl

/-- Witness for C7 at a concrete one-element part list. -/
theorem maybe_received_value_needs_parts_witness :
    (([⟨2, Option.none⟩] : List (BlockPart Nat Nat)) ≠ [] ∧
      ([⟨2, Option.none⟩] : List (BlockPart Nat Nat)).length - 1
          < ([⟨2, Option.none⟩] : List (BlockPart Nat Nat)).length ∧
      (maybe_received_value 1 (Round.some 0)
        ([⟨2, Option.none⟩] : List (BlockPart Nat Nat))).isSome = true) :=
  ⟨by decide,
   (maybe_received_value_needs_parts 1 (Round.some 0)
      ([⟨2, Option.none⟩] : List (BlockPart Nat Nat))).1 (by decide)⟩

/-- C3: for every state whose step is not Commit, input TimeoutPrecommit at the
current round moves the state to round input_round.increment() and input
SkipRound(r) with r above the current round moves it to round r; in both cases
the step becomes Unstarted, exactly one NewRound output is emitted, and the
locked, valid and decision fields are left exactly as they were (expressed by
the record update touching only round and step). -/
theorem apply_round_skip_frame (vid : V → VId) (state : State V) (info : Info A)
    (h : state.step ≠ Step.Commit) :
    (info.inputRound = state.round →
      (apply vid state info Input.TimeoutPrecommit).nextState =
        { state with round := info.inputRound.increment, step := Step.Unstarted } ∧
      (apply vid state info Input.TimeoutPrecommit).output =
        Option.some (Output.NewRound info.inputRound.increment)) ∧
    (∀ r, Round.lt state.round r = true →
      (apply vid state info (Input.SkipRound r)).nextState =
        { state with round := r, step := Step.Unstarted } ∧
      (apply vid state info (Input.SkipRound r)).output =
        Option.some (Output.NewRound r)) := by
  obtain ⟨height, round, step, locked, valid, decision⟩ := state
  constructor
  · intro h2
    cases step <;>
      simp_all [apply, round_skip, Transition.to, Transition.withOutput,
        State.with_round, State.with_step]
  · intro r hr
    cases step <;>
      simp_all [apply, round_skip, Transition.to, Transition.withOutput,
        State.with_round, State.with_step]

/-- Witness for C3 at a concrete Prevote-step state at round 1, with the
timeout-precommit transition to round 2 and a skip to round 3. -/
theorem apply_round_skip_frame_witness :
    ((⟨1, Round.some 1, Step.Prevote, Option.none, Option.some ⟨Round.some 0, 7⟩,
        Option.none⟩ : State Nat).step ≠ Step.Commit ∧
     (⟨Round.some 1, 2, 3⟩ : Info Nat).inputRound
        = (⟨1, Round.some 1, Step.Prevote, Option.none, Option.some ⟨Round.some 0, 7⟩,
            Option.none⟩ : State Nat).round ∧
     Round.lt (⟨1, Round.some 1, Step.Prevote, Option.none, Option.some ⟨Round.some 0, 7⟩,
        Option.none⟩ : State Nat).round (Round.some 3) = true) ∧
    ((apply (fun v => v)
        (⟨1, Round.some 1, Step.Prevote, Option.none, Option.some ⟨Round.some 0, 7⟩,
          Option.none⟩ : State Nat)
        (⟨Round.some 1, 2, 3⟩ : Info Nat) Input.TimeoutPrecommit).nextState =
      ⟨1, Round.some 2, Step.Unstarted, Option.none, Option.some ⟨Round.some 0, 7⟩,
        Option.none⟩ ∧
     (apply (fun v => v)
        (⟨1, Round.some 1, Step.Prevote, Option.none, Option.some ⟨Round.some 0, 7⟩,
          Option.none⟩ : State Nat)
        (⟨Round.some 1, 2, 3⟩ : Info Nat) Input.TimeoutPrecommit).output =
      Option.some (Output.NewRound (Round.some 2))) ∧
    ((apply (fun v => v)
        (⟨1, Round.some 1, Step.Prevote, Option.none, Option.some ⟨Round.some 0, 7⟩,
          Option.none⟩ : State Nat)
        (⟨Round.some 1, 2, 3⟩ : Info Nat) (Input.SkipRound (Round.some 3))).nextState =
      ⟨1, Round.some 3, Step.Unstarted, Option.none, Option.some ⟨Round.some 0, 7⟩,
        Option.none⟩ ∧
     (apply (fun v => v)
        (⟨1, Round.some 1, Step.Prevote, Option.none, Option.some ⟨Round.some 0, 7⟩,
          Option.none⟩ : State Nat)
        (⟨Round.some 1, 2, 3⟩ : Info Nat) (Input.SkipRound (Round.some 3))).output =
      Option.some (Output.NewRound (Round.some 3))) :=
  ⟨⟨by decide, rfl, by decide⟩,
   (apply_round_skip_frame (fun v => v) _ _ (by decide)).1 rfl,
   (apply_round_skip_frame (fun v => v) _ _ (by decide)).2 (Round.some 3) (by decide)⟩

/-- C6: at step Unstarted on NewRound(r) when this node is the proposer, `apply`
sets the round to r and moves to step Propose; if `valid` holds some round-value
rv it emits a Proposal output carrying rv.value with pol_round rv.round,
otherwise it emits a GetValueAndScheduleTimeout output for the Propose timeout
step. -/
theorem apply_new_round_proposer (vid : V → VId) (state : State V) (info : Info A)
    (r : Round) (h1 : state.step = Step.Unstarted) (h2 : info.isProposer = true) :
    (apply vid state info (Input.NewRound r)).nextState.round = r ∧
    (apply vid state info (Input.NewRound r)).nextState.step = Step.Propose ∧
    (∀ rv, state.valid = Option.some rv →
      (apply vid state info (Input.NewRound r)).output =
        Option.some (Output.Proposal state.height r rv.value rv.round)) ∧
    (state.valid = Option.none →
      (apply vid state info (Input.NewRound r)).output =
        Option.some (Output.GetValueAndScheduleTimeout r TimeoutStep.Propose)) := by
  obtain ⟨height, round, step, locked, valid, decision⟩ := state
  obtain rfl : step = Step.Unstarted := h1
  cases valid <;>
    simp_all [apply, propose_valid_or_get_value, Transition.to, Transition.withOutput,
      State.with_step]

/-- Witness for C6 at a concrete Unstarted proposer state with a valid value. -/
theorem apply_new_round_proposer_witness :
    ((⟨1, Round.nil, Step.Unstarted, Option.none, Option.some ⟨Round.some 0, 7⟩,
        Option.none⟩ : State Nat).step = Step.Unstarted ∧
     (⟨Round.some 1, 3, 3⟩ : Info Nat).isProposer = true) ∧
    ((apply (fun v => v)
        (⟨1, Round.nil, Step.Unstarted, Option.none, Option.some ⟨Round.some 0, 7⟩,
          Option.none⟩ : State Nat)
        (⟨Round.some 1, 3, 3⟩ : Info Nat) (Input.NewRound (Round.some 1))).nextState.round
      = Round.some 1 ∧
     (apply (fun v => v)
        (⟨1, Round.nil, Step.Unstarted, Option.none, Option.some ⟨Round.some 0, 7⟩,
          Option.none⟩ : State Nat)
        (⟨Round.some 1, 3, 3⟩ : Info Nat) (Input.NewRound (Round.some 1))).nextState.step
      = Step.Propose ∧
     (apply (fun v => v)
        (⟨1, Round.nil, Step.Unstarted, Option.none, Option.some ⟨Round.some 0, 7⟩,
          Option.none⟩ : State Nat)
        (⟨Round.some 1, 3, 3⟩ : Info Nat) (Input.NewRound (Round.some 1))).output
      = Option.some (Output.Proposal 1 (Round.some 1) 7 (Round.some 0))) :=
  ⟨⟨rfl, by decide⟩,
   (apply_new_round_proposer (fun v => v) _ _ _ rfl (by decide)).1,
   (apply_new_round_proposer (fun v => v) _ _ _ rfl (by decide)).2.1,
   (apply_new_round_proposer (fun v => v) _ _ _ rfl (by decide)).2.2.1
     ⟨Round.some 0, 7⟩ rfl⟩

/-- C1 counterexample: at step Propose with input ProposalAndPolkaPrevious for
the current round, a defined pol_round below the round, and `locked = None`,
the code emits a Prevote for Nil, not a Prevote for the proposal's value id as
the claim states: the guard `map_or(false, ..)` sends the unlocked case to
`prevote_nil`. -/
theorem apply_polka_previous_unlocked_cex :
    ((⟨1, Round.some 1, Step.Propose, Option.none, Option.none, Option.none⟩ : State Nat).locked
        = Option.none) ∧
    (apply (fun v => v)
        (⟨1, Round.some 1, Step.Propose, Option.none, Option.none, Option.none⟩ : State Nat)
        (⟨Round.some 1, 10, 20⟩ : Info Nat)
        (Input.ProposalAndPolkaPrevious ⟨1, Round.some 1, 42, Round.some 0, 20⟩)).output
      = Option.some (Output.Vote VoteType.Prevote 1 (Round.some 1) NilOrVal.nil 10) ∧
    (apply (fun v => v)
        (⟨1, Round.some 1, Step.Propose, Option.none, Option.none, Option.none⟩ : State Nat)
        (⟨Round.some 1, 10, 20⟩ : Info Nat)
        (Input.ProposalAndPolkaPrevious ⟨1, Round.some 1, 42, Round.some 0, 20⟩)).output
      ≠ Option.some (Output.Vote VoteType.Prevote 1 (Round.some 1) (NilOrVal.val 42) 10) := by
  refine ⟨rfl, rfl, ?_⟩
  decide

/-- C1 amended: for every state at step Propose and input
ProposalAndPolkaPrevious(p) with input_round = state.round, p.pol_round defined
and p.pol_round < state.round: if locked is Some l with l.round ≤ p.pol_round
and l.value = p.value then `apply` emits a Prevote for p.value's id; otherwise
(including locked = None) it emits a Prevote for Nil; in both cases the next
step is Prevote. -/
theorem apply_polka_previous (vid : V → VId) (state : State V) (info : Info A)
    (p : Proposal V A)
    (h1 : state.step = Step.Propose)
    (h2 : info.inputRound = state.round)
    (h3 : p.polRound.isDefined = true)
    (h4 : Round.lt p.polRound state.round = true) :
    (apply vid state info (Input.ProposalAndPolkaPrevious p)).nextState.step = Step.Prevote ∧
    (apply vid state info (Input.ProposalAndPolkaPrevious p)).output =
      Option.some (Output.Vote VoteType.Prevote state.height state.round
        (match state.locked with
         | Option.some locked =>
             if Round.le locked.round p.polRound = true ∧ locked.value = p.value
             then NilOrVal.val (vid p.value)
             else NilOrVal.nil
         | Option.none => NilOrVal.nil)
        info.address) := by
  obtain ⟨height, round, step, locked, valid, decision⟩ := state
  obtain rfl : step = Step.Propose := h1
  simp only [apply, is_valid_pol_round, h3, h4, Bool.and_self, and_true, if_pos h2.symm]
  cases locked with
  | none =>
      exact ⟨rfl, rfl⟩
  | some l =>
      dsimp only
      by_cases hc : Round.le l.round p.polRound = true ∧ l.value = p.value
      · rw [if_pos hc]
        refine ⟨rfl, ?_⟩
        simp only [prevote, Transition.to, Transition.withOutput, State.with_step, if_pos hc]
        by_cases hvr : Round.le l.round p.round = true
        · simp [hvr]
        · simp [hvr, hc.2]
      · rw [if_neg hc]
        exact ⟨rfl, by simp [prevote_nil, Transition.to, Transition.withOutput,
          State.with_step, if_neg hc]⟩

/-- Witness for the amended C1 at a concrete state locked at round 0 on the
proposed value, with pol_round 1 below the current round 2. -/
theorem apply_polka_previous_witness :
    ((⟨1, Round.some 2, Step.Propose, Option.some ⟨Round.some 0, 9⟩, Option.none,
        Option.none⟩ : State Nat).step = Step.Propose ∧
     (⟨Round.some 2, 3, 4⟩ : Info Nat).inputRound
        = (⟨1, Round.some 2, Step.Propose, Option.some ⟨Round.some 0, 9⟩, Option.none,
            Option.none⟩ : State Nat).round ∧
     (Round.some 1).isDefined = true ∧
     Round.lt (Round.some 1) (Round.some 2) = true) ∧
    ((apply (fun v => v)
        (⟨1, Round.some 2, Step.Propose, Option.some ⟨Round.some 0, 9⟩, Option.none,
          Option.none⟩ : State Nat)
        (⟨Round.some 2, 3, 4⟩ : Info Nat)
        (Input.ProposalAndPolkaPrevious ⟨1, Round.some 2, 9, Round.some 1, 4⟩)).nextState.step
      = Step.Prevote ∧
     (apply (fun v => v)
        (⟨1, Round.some 2, Step.Propose, Option.some ⟨Round.some 0, 9⟩, Option.none,
          Option.none⟩ : State Nat)
        (⟨Round.some 2, 3, 4⟩ : Info Nat)
        (Input.ProposalAndPolkaPrevious ⟨1, Round.some 2, 9, Round.some 1, 4⟩)).output
      = Option.some (Output.Vote VoteType.Prevote 1 (Round.some 2) (NilOrVal.val 9) 3)) :=
  ⟨⟨rfl, rfl, rfl, by decide⟩,
   apply_polka_previous (fun v => v) _ _ _ rfl rfl rfl (by decide)⟩

/-- C5: if proposal p1 is recorded for a round and `apply_proposal` is then
called with a proposal p2 for the same round from the same proposer with a
different value, the stored proposal is unchanged (still p1), the call is not
fatal (`apply_proposal` is a total function), and the pair (p1, p2) is appended
to the evidence map under the proposer's address, retrievable via `evidence()`. -/
theorem apply_conflicting_proposal (k : ProposalKeeper V A) (p1 p2 : Proposal V A)
    (h1 : k.get_proposal_for_round p2.round = Option.some p1)
    (h2 : p1.value ≠ p2.value)
    (h3 : p1.validatorAddress = p2.validatorAddress) :
    (k.apply_proposal p2).get_proposal_for_round p2.round = Option.some p1 ∧
    (k.apply_proposal p2).evidence.get p2.validatorAddress =
      Option.some (((k.evidence.get p2.validatorAddress).getD []) ++ [(p1, p2)]) := by
  rcases hk : k.per_round p2.round with _ | pr
  · rw [ProposalKeeper.get_proposal_for_round, hk] at h1
    simp at h1
  · have hp : pr.proposal = Option.some p1 := by
      rw [ProposalKeeper.get_proposal_for_round, hk] at h1
      simpa using h1
    have happ : k.apply_proposal p2 = { k with evidence := k.evidence.add p1 p2 } := by
      unfold ProposalKeeper.apply_proposal
      rw [hk]
      simp [PerRound.add, hp, h2]
    refine ⟨?_, ?_⟩
    · rw [happ]
      exact h1
    · rw [happ]
      rcases hev : k.evidence.map p2.validatorAddress with _ | evs <;>
        simp [EvidenceMap.add, EvidenceMap.get, hev]

/-- Witness for C5: a keeper holding proposal (round 0, value 7) receives a
conflicting proposal (round 0, value 8) from the same proposer. -/
theorem apply_conflicting_proposal_witness :
    ((ProposalKeeper.new.apply_proposal
        (⟨1, Round.some 0, 7, Round.nil, 5⟩ : Proposal Nat Nat)).get_proposal_for_round
        (⟨1, Round.some 0, 8, Round.nil, 5⟩ : Proposal Nat Nat).round
      = Option.some ⟨1, Round.some 0, 7, Round.nil, 5⟩ ∧
     (⟨1, Round.some 0, 7, Round.nil, 5⟩ : Proposal Nat Nat).value
        ≠ (⟨1, Round.some 0, 8, Round.nil, 5⟩ : Proposal Nat Nat).value ∧
     (⟨1, Round.some 0, 7, Round.nil, 5⟩ : Proposal Nat Nat).validatorAddress
        = (⟨1, Round.some 0, 8, Round.nil, 5⟩ : Proposal Nat Nat).validatorAddress) ∧
    (((ProposalKeeper.new.apply_proposal
         (⟨1, Round.some 0, 7, Round.nil, 5⟩ : Proposal Nat Nat)).apply_proposal
         (⟨1, Round.some 0, 8, Round.nil, 5⟩ : Proposal Nat Nat)).get_proposal_for_round
        (⟨1, Round.some 0, 8, Round.nil, 5⟩ : Proposal Nat Nat).round
      = Option.some ⟨1, Round.some 0, 7, Round.nil, 5⟩ ∧
     ((ProposalKeeper.new.apply_proposal
         (⟨1, Round.some 0, 7, Round.nil, 5⟩ : Proposal Nat Nat)).apply_proposal
         (⟨1, Round.some 0, 8, Round.nil, 5⟩ : Proposal Nat Nat)).evidence.get
        (⟨1, Round.some 0, 8, Round.nil, 5⟩ : Proposal Nat Nat).validatorAddress
      = Option.some ((((ProposalKeeper.new.apply_proposal
            (⟨1, Round.some 0, 7, Round.nil, 5⟩ : Proposal Nat Nat)).evidence.get
            (⟨1, Round.some 0, 8, Round.nil, 5⟩ : Proposal Nat Nat).validatorAddress).getD [])
          ++ [(⟨1, Round.some 0, 7, Round.nil, 5⟩, ⟨1, Round.some 0, 8, Round.nil, 5⟩)])) :=
  ⟨⟨rfl, by decide, rfl⟩,
   apply_conflicting_proposal _ _ _ rfl (by decide) rfl⟩

/-- How one `apply_proposal` changes `get_proposal_for_round`: for the
proposal's round, a missing entry becomes the proposal, an entry with an equal
value is replaced by the new proposal, and an entry with a conflicting value is
kept; other rounds are untouched. -/
theorem get_proposal_after_apply (k : ProposalKeeper V A) (p : Proposal V A) (r : Round) :
    (k.apply_proposal p).get_proposal_for_round r =
      if r = p.round then
        match k.get_proposal_for_round p.round with
        | Option.none => Option.some p
        | Option.some q => if q.value = p.value then Option.some p else Option.some q
      else k.get_proposal_for_round r := by
  unfold ProposalKeeper.apply_proposal
  rcases hk : k.per_round p.round with _ | pr
  · by_cases hr : r = p.round <;>
      simp [ProposalKeeper.get_proposal_for_round, PerRound.add, hk, hr]
  · rcases hp : pr.proposal with _ | q
    · by_cases hr : r = p.round <;>
        simp [ProposalKeeper.get_proposal_for_round, PerRound.add, hk, hp, hr]
    · by_cases hv : q.value = p.value
      · by_cases hr : r = p.round <;>
          simp [ProposalKeeper.get_proposal_for_round, PerRound.add, hk, hp, hv, hr]
      · by_cases hr : r = p.round <;>
          simp [ProposalKeeper.get_proposal_for_round, PerRound.add, hk, hp, hv, hr]

/-- The value stored for a round after a sequence of `apply_proposal` calls:
the value already stored, or else the value of the first proposal for that
round in the sequence. -/
theorem value_after_apply_all (ps : List (Proposal V A)) (k : ProposalKeeper V A)
    (r : Round) :
    ((k.apply_all ps).get_proposal_for_round r).map Proposal.value =
      match (k.get_proposal_for_round r).map Proposal.value with
      | Option.some v => Option.some v
      | Option.none => (ps.find? fun p => decide (p.round = r)).map Proposal.value := by
  induction ps generalizing k with
  | nil =>
      rcases h : k.get_proposal_for_round r with _ | q <;>
        simp [ProposalKeeper.apply_all, h]
  | cons p ps ih =>
      have hfold : k.apply_all (p :: ps) = (k.apply_proposal p).apply_all ps := rfl
      rw [hfold, ih]
      by_cases hr : p.round = r
      · subst hr
        rw [get_proposal_after_apply]
        simp only [if_pos rfl, List.find?_cons, decide_eq_true_eq, if_pos rfl]
        rcases h : k.get_proposal_for_round p.round with _ | q
        · simp [h]
        · by_cases hv : q.value = p.value <;> simp [h, hv]
      · rw [get_proposal_after_apply]
        rw [if_neg (fun hcontra => hr hcontra.symm)]
        have hfind : (List.find? (fun p' => decide (p'.round = r)) (p :: ps))
            = List.find? (fun p' => decide (p'.round = r)) ps := by
          simp [List.find?_cons, hr]
        rw [hfind]

/-- C4 counterexample: starting from a fresh keeper, record proposal pa for
round 0 and then apply pb, a different proposal for round 0 with the same value
but a different pol_round; the returned proposal for round 0 is now pb, not the
first recorded proposal pa, falsifying the claim that later proposals never
change the returned proposal. -/
theorem get_proposal_first_recorded_cex :
    ((ProposalKeeper.new.apply_all
        [(⟨1, Round.some 0, 7, Round.nil, 5⟩ : Proposal Nat Nat)]).get_proposal_for_round
        (Round.some 0) = Option.some ⟨1, Round.some 0, 7, Round.nil, 5⟩) ∧
    ((ProposalKeeper.new.apply_all
        [(⟨1, Round.some 0, 7, Round.nil, 5⟩ : Proposal Nat Nat),
         (⟨1, Round.some 0, 7, Round.some 0, 5⟩ : Proposal Nat Nat)]).get_proposal_for_round
        (Round.some 0) = Option.some ⟨1, Round.some 0, 7, Round.some 0, 5⟩) ∧
    ((⟨1, Round.some 0, 7, Round.some 0, 5⟩ : Proposal Nat Nat)
        ≠ ⟨1, Round.some 0, 7, Round.nil, 5⟩) := by
  refine ⟨rfl, rfl, ?_⟩
  decide

/-- C4 amended: for every sequence of `apply_proposal` calls on a fresh
ProposalKeeper, `get_proposal_for_round(round)` returns None if no proposal was
recorded for that round, and otherwise Some of a proposal whose value equals
the value of the first proposal ever recorded for that round: proposals with a
conflicting value never change the stored proposal, while a later proposal with
the same value replaces the stored proposal object. -/
theorem get_proposal_first_value (ps : List (Proposal V A)) (r : Round) :
    ((ProposalKeeper.new.apply_all ps).get_proposal_for_round r).map Proposal.value =
      (ps.find? fun p => decide (p.round = r)).map Proposal.value := by
  have h := value_after_apply_all ps (ProposalKeeper.new (V := V) (A := A)) r
  simpa [ProposalKeeper.new, ProposalKeeper.get_proposal_for_round] using h

/-- The retain-based safety check establishes disjointness of the inbound and
outbound connection maps on connection ids, whatever state it is run on. -/
theorem retain_disjoint_inbound_disjoint (st : DiscoveryState) (peer connId : Nat)
    (outConn : OutboundConnection)
    (hin : (retain_disjoint_inbound st).inbound_connections peer = Option.some connId)
    (hout : (retain_disjoint_inbound st).outbound_connections peer = Option.some outConn) :
    outConn.connection_id ≠ Option.some connId := by
  have hout' : st.outbound_connections peer = Option.some outConn := hout
  simp only [retain_disjoint_inbound] at hin
  rcases h1 : st.inbound_connections peer with _ | c
  · rw [h1] at hin
    exact absurd hin (by simp)
  · rw [h1, hout'] at hin
    dsimp only at hin
    by_cases h2 : outConn.connection_id = Option.some c
    · rw [if_pos h2] at hin
      exact absurd hin (by simp)
    · rw [if_neg h2] at hin
      have : c = connId := by simpa using hin
      rw [← this]
      exact h2

/-- C10 counterexample: when the selector yields `Selection.None` the function
returns before the safety check, leaving a pre-existing overlap between the
inbound and outbound connection maps in place, so the claimed disjointness
does not hold after every completed call. -/
theorem select_outbound_disjoint_cex :
    ¬ (∀ (peer connId : Nat) (outConn : OutboundConnection),
        (select_outbound_connections
          ⟨fun p => if p = 0 then Option.some 5 else Option.none,
           fun p => if p = 0 then Option.some ⟨Option.some 5, true⟩ else Option.none,
           fun _ => Option.none⟩
          Selection.None).inbound_connections peer = Option.some connId →
        (select_outbound_connections
          ⟨fun p => if p = 0 then Option.some 5 else Option.none,
           fun p => if p = 0 then Option.some ⟨Option.some 5, true⟩ else Option.none,
           fun _ => Option.none⟩
          Selection.None).outbound_connections peer = Option.some outConn →
        outConn.connection_id ≠ Option.some connId) := by
  intro h
  exact (h 0 5 ⟨Option.some 5, true⟩ rfl rfl) rfl

/-- C10 amended: whenever the candidate selection is not `Selection.None` (so
the function does not take the early return), after `select_outbound_connections`
completes the inbound and outbound connection maps are disjoint on connection
ids: for every peer present in both maps, the inbound connection id differs
from the connection id in that peer's outbound entry. -/
theorem select_outbound_disjoint (st : DiscoveryState) (sel : Selection)
    (hsel : sel ≠ Selection.None) (peer connId : Nat) (outConn : OutboundConnection)
    (hin : (select_outbound_connections st sel).inbound_connections peer
      = Option.some connId)
    (hout : (select_outbound_connections st sel).outbound_connections peer
      = Option.some outConn) :
    outConn.connection_id ≠ Option.some connId := by
  cases sel with
  | None => exact absurd rfl hsel
  | Exactly peers => exact retain_disjoint_inbound_disjoint _ _ _ _ hin hout
  | Only peers => exact retain_disjoint_inbound_disjoint _ _ _ _ hin hout

/-- Witness for the amended C10: peer 0 has inbound connection 5; the selector
picks peer 0, whose first active connection is 7, so the outbound entry gets
connection id 7 and the inbound entry survives the safety check. -/
theorem select_outbound_disjoint_witness :
    ((Selection.Exactly [0] ≠ Selection.None) ∧
     (select_outbound_connections
        ⟨fun p => if p = 0 then Option.some 5 else Option.none,
         fun _ => Option.none,
         fun p => if p = 0 then Option.some [7] else Option.none⟩
        (Selection.Exactly [0])).inbound_connections 0 = Option.some 5 ∧
     (select_outbound_connections
        ⟨fun p => if p = 0 then Option.some 5 else Option.none,
         fun _ => Option.none,
         fun p => if p = 0 then Option.some [7] else Option.none⟩
        (Selection.Exactly [0])).outbound_connections 0
        = Option.some ⟨Option.some 7, false⟩) ∧
    (⟨Option.some 7, false⟩ : OutboundConnection).connection_id ≠ Option.some 5 :=
  ⟨⟨by decide, rfl, rfl⟩,
   select_outbound_disjoint
     ⟨fun p => if p = 0 then Option.some 5 else Option.none,
      fun _ => Option.none,
      fun p => if p = 0 then Option.some [7] else Option.none⟩
     (Selection.Exactly [0]) (by decide) 0 5 ⟨Option.some 7, false⟩ rfl rfl⟩

end ClaimTheorems
